import Mathlib

/-!
Verification of the poke-battles real-time session core.

The Go sources are embedded shallowly: each Go method becomes a Lean
function over explicit state, Go maps become association lists, and the
mutex-guarded mutations become pure state transformers (each Go method is
atomic under its lock, so a sequential small-step model is faithful).
-/

namespace PokeBattles

/-! ### Association-list maps

Go maps (`map[string]T`, `map[*Connection]bool`, ...) are modelled as
association lists.  `insertA` replaces the binding of an existing key,
`eraseA` removes every binding of the key (Go maps hold at most one), so
both are pointwise faithful to Go map assignment and `delete`. -/

def lookupA {α β : Type} [DecidableEq α] : List (α × β) → α → Option β
  | [], _ => none
  | (k, v) :: rest, key => if k = key then some v else lookupA rest key

def insertA {α β : Type} [DecidableEq α] (l : List (α × β)) (key : α) (v : β) :
    List (α × β) :=
  match l with
  | [] => [(key, v)]
  | (k, w) :: rest => if k = key then (k, v) :: rest else (k, w) :: insertA rest key v

def eraseA {α β : Type} [DecidableEq α] (l : List (α × β)) (key : α) : List (α × β) :=
  l.filter (fun kv => kv.1 ≠ key)

/-! ### Lobby domain (backend/internal/game)

Faithful embedding of `Lobby` and its methods.  `CreatedAt` is carried as
an integer timestamp supplied by the caller (`time.Now()`). -/

inductive LobbyState
  | waiting
  | ready
  | active
  deriving DecidableEq, Repr

/-- `LobbyState.String()` from the source. -/
def LobbyState.str : LobbyState → String
  | .waiting => "waiting"
  | .ready => "ready"
  | .active => "active"

inductive LobbyErr
  | lobbyFull
  | playerAlreadyJoined
  | playerNotFound
  | invalidStateForJoin
  | invalidStateForStart
  | notEnoughPlayers
  deriving DecidableEq, Repr

structure Player where
  id : String
  username : String
  deriving DecidableEq, Repr

instance : Inhabited Player := ⟨⟨"", ""⟩⟩

structure Lobby where
  code : String
  state : LobbyState
  players : List Player
  hostID : String
  maxPlayers : Nat
  createdAt : Int
  deriving DecidableEq, Repr

/-- `NewLobby`: the host is the sole player, state Waiting, MaxPlayers 2. -/
def NewLobby (code hostID hostUsername : String) (now : Int) : Lobby :=
  { code := code
    state := .waiting
    players := [{ id := hostID, username := hostUsername }]
    hostID := hostID
    maxPlayers := 2
    createdAt := now }

/-- `Lobby.AddPlayer`: state check, then duplicate check, then capacity
check, then append and transition to Ready at max capacity. -/
def Lobby.AddPlayer (l : Lobby) (id username : String) : Except LobbyErr Lobby :=
  if l.state ≠ .waiting then .error .invalidStateForJoin
  else if l.players.any (fun p => p.id = id) then .error .playerAlreadyJoined
  else if l.players.length ≥ l.maxPlayers then .error .lobbyFull
  else
    let players := l.players ++ [{ id := id, username := username }]
    .ok { l with
          players := players
          state := if players.length = l.maxPlayers then .ready else l.state }

/-- The removal loop inside `Lobby.RemovePlayer`: drop the first player
with the given ID, or report that none was found. -/
def removeFirst (id : String) : List Player → Option (List Player)
  | [] => none
  | p :: ps =>
      if p.id = id then some ps
      else match removeFirst id ps with
           | none => none
           | some ps' => some (p :: ps')

/-- `Lobby.RemovePlayer`: remove the player, fall back from Ready to
Waiting below capacity, reassign the host to the first remaining player. -/
def Lobby.RemovePlayer (l : Lobby) (id : String) : Except LobbyErr Lobby :=
  match removeFirst id l.players with
  | none => .error .playerNotFound
  | some players =>
    let st := if l.state = .ready ∧ players.length < l.maxPlayers then .waiting else l.state
    let host :=
      if id = l.hostID then
        match players with
        | [] => l.hostID
        | q :: _ => q.id
      else l.hostID
    .ok { l with players := players, state := st, hostID := host }

/-- `Lobby.Start`: Ready plus full capacity transitions to Active. -/
def Lobby.Start (l : Lobby) : Except LobbyErr Lobby :=
  if l.state ≠ .ready then .error .invalidStateForStart
  else if l.players.length < l.maxPlayers then .error .notEnoughPlayers
  else .ok { l with state := .active }

/-- `Lobby.GetState` (the lock is irrelevant in the sequential model). -/
def Lobby.GetState (l : Lobby) : LobbyState := l.state

/-- `Lobby.CanStart`. -/
def Lobby.CanStart (l : Lobby) : Bool :=
  l.state = .ready ∧ l.players.length = l.maxPlayers

/-- `Lobby.PlayerCount`. -/
def Lobby.PlayerCount (l : Lobby) : Nat := l.players.length

/-- `Lobby.HasPlayer`. -/
def Lobby.HasPlayer (l : Lobby) (id : String) : Bool :=
  l.players.any (fun p => p.id = id)

/-- `Lobby.IsHost`. -/
def Lobby.IsHost (l : Lobby) (id : String) : Bool := l.hostID = id

/-- `Lobby.GetPlayers` (returns a deep copy; copying is the identity here). -/
def Lobby.GetPlayers (l : Lobby) : List Player := l.players

/-- `Lobby.GetHostID`. -/
def Lobby.GetHostID (l : Lobby) : String := l.hostID

def playerIDs (l : Lobby) : List String := l.players.map Player.id

/-! ### Reachability of lobby values through the domain operations -/

/-- Lobby values reachable from `NewLobby` by any interleaving of
successful `AddPlayer`, `RemovePlayer` and `Start` calls. -/
inductive Reach : Lobby → Prop
  | create (code hostID hostUsername : String) (now : Int) :
      Reach (NewLobby code hostID hostUsername now)
  | add {l l' : Lobby} (id username : String) :
      Reach l → l.AddPlayer id username = .ok l' → Reach l'
  | remove {l l' : Lobby} (id : String) :
      Reach l → l.RemovePlayer id = .ok l' → Reach l'
  | start {l l' : Lobby} :
      Reach l → l.Start = .ok l' → Reach l'

/-- The inductive state invariant of the lobby machine. -/
def DomInv (l : Lobby) : Prop :=
  l.maxPlayers = 2 ∧
  l.players.length ≤ l.maxPlayers ∧
  (l.state = .waiting ↔ l.players.length < l.maxPlayers ∧ l.state ≠ .active) ∧
  (l.state = .ready ↔ l.players.length = l.maxPlayers ∧ l.state ≠ .active)

/-! ### Lobby service (backend/internal/services/lobby_service.go)

The registry `map[string]*game.Lobby` becomes an association list.  The
Go service wraps domain errors with `fmt.Errorf(..., %w)`; callers match
them with `errors.Is`, so the wrapped error is modelled by the sentinel
it wraps. -/

abbrev Registry := List (String × Lobby)

inductive SvcErr
  | lobbyNotFound
  | notHost
  | domain (e : LobbyErr)
  deriving DecidableEq, Repr

/-- `lobbyService.CreateLobby`.  The generate-until-unused loop around
`GenerateRoomCode` only ever installs a code that is absent from the
registry, so the chosen code is passed in and theorems hypothesise its
freshness. -/
def CreateLobby (s : Registry) (code hostID hostUsername : String) (now : Int) :
    Registry × Lobby :=
  (insertA s code (NewLobby code hostID hostUsername now),
   NewLobby code hostID hostUsername now)

/-- `lobbyService.JoinLobby`: lookup, delegate to `AddPlayer`. -/
def JoinLobby (s : Registry) (code playerID playerUsername : String) :
    Except SvcErr (Registry × Lobby) :=
  match lookupA s code with
  | none => .error .lobbyNotFound
  | some lobby =>
    match lobby.AddPlayer playerID playerUsername with
    | .error e => .error (.domain e)
    | .ok lobby' => .ok (insertA s code lobby', lobby')

/-- `lobbyService.LeaveLobby`: lookup, delegate to `RemovePlayer`, delete
the lobby from the registry when it becomes empty. -/
def LeaveLobby (s : Registry) (code playerID : String) : Except SvcErr Registry :=
  match lookupA s code with
  | none => .error .lobbyNotFound
  | some lobby =>
    match lobby.RemovePlayer playerID with
    | .error e => .error (.domain e)
    | .ok lobby' =>
      if lobby'.PlayerCount = 0 then .ok (eraseA s code)
      else .ok (insertA s code lobby')

/-- `lobbyService.GetLobby`. -/
def GetLobby (s : Registry) (code : String) : Except SvcErr Lobby :=
  match lookupA s code with
  | none => .error .lobbyNotFound
  | some lobby => .ok lobby

/-- `lobbyService.ListLobbies`: the values of the registry map. -/
def ListLobbies (s : Registry) : List Lobby := s.map Prod.snd

/-- `lobbyService.StartGame`: lookup, host check, delegate to `Start`. -/
def StartGame (s : Registry) (code playerID : String) : Except SvcErr Registry :=
  match lookupA s code with
  | none => .error .lobbyNotFound
  | some lobby =>
    if lobby.IsHost playerID = false then .error .notHost
    else match lobby.Start with
      | .error e => .error (.domain e)
      | .ok lobby' => .ok (insertA s code lobby')

/-! ### HTTP error mapping (backend/internal/controllers/lobby_controller.go) -/

/-- The `switch`/`errors.Is` mapping in `LobbyController.Join`, paired
with the constants of responses.go. -/
def joinErrorResponse : SvcErr → Nat × String
  | .lobbyNotFound => (404, "lobby not found")
  | .domain .lobbyFull => (409, "lobby is full")
  | .domain .playerAlreadyJoined => (409, "player already in lobby")
  | .domain .invalidStateForJoin => (409, "cannot join lobby in current state")
  | _ => (500, "failed to join lobby")

/-- `LobbyController.Join`: delegate to the service and map the outcome
to an HTTP response (status code paired with the error body). -/
def controllerJoin (s : Registry) (code playerID username : String) :
    Except (Nat × String) (Registry × Lobby) :=
  match JoinLobby s code playerID username with
  | .error e => .error (joinErrorResponse e)
  | .ok r => .ok r

/-! ### Service-level reachability -/

/-- Registry states reachable by successful service operations. -/
inductive SReach : Registry → Prop
  | empty : SReach []
  | create {s : Registry} (code hostID hostUsername : String) (now : Int) :
      SReach s → lookupA s code = none →
      SReach (CreateLobby s code hostID hostUsername now).1
  | join {s : Registry} {r : Registry × Lobby} (code pid uname : String) :
      SReach s → JoinLobby s code pid uname = .ok r → SReach r.1
  | leave {s s' : Registry} (code pid : String) :
      SReach s → LeaveLobby s code pid = .ok s' → SReach s'
  | start {s s' : Registry} (code pid : String) :
      SReach s → StartGame s code pid = .ok s' → SReach s'

/-- Invariant carried by every lobby resident in a reachable registry. -/
def SvcInv (s : Registry) : Prop :=
  ∀ code lobby, lookupA s code = some lobby →
    DomInv lobby ∧ (playerIDs lobby).Nodup ∧ lobby.players ≠ [] ∧
    lobby.hostID ∈ playerIDs lobby

/-! ### Concrete fixtures used by witnesses -/

/-- A two-player lobby at max capacity, reachable by create and join. -/
def lobbyTwo : Lobby :=
  { code := "C"
    state := .ready
    players := [{ id := "h", username := "H" }, { id := "p", username := "P" }]
    hostID := "h"
    maxPlayers := 2
    createdAt := 0 }

/-! ### Outbound sequencing (Connection.NextSeq, SendMessage, SendRaw,
WritePump)

`outboundSeq` is a Go `int64`, so the increment wraps in two's
complement.  `SendMessage` draws a sequence number and only then hands
the marshalled envelope to `SendRaw`, which enqueues on the buffered
send channel if it has room and otherwise drops the message with
`ErrSendBufferFull`.  The write pump drains the channel in FIFO order;
a drained message is what the client observes as delivered. -/

/-- Two's-complement wrap-around of a Go `int64`. -/
def int64Wrap (x : Int) : Int := (x + 2 ^ 63) % 2 ^ 64 - 2 ^ 63

/-- `sendBufferSize` from the source. -/
def sendBufferSize : Nat := 256

/-- The sequencing-relevant state of one `Connection`: the outbound
counter, the buffered send channel, and the frames the write pump has
already written, each recorded by the seq its envelope carried. -/
structure ConnSeq where
  outboundSeq : Int
  buffer : List Int
  delivered : List Int
  deriving DecidableEq, Repr

/-- `NewConnection`: counter starts at 0, channel empty. -/
def NewConnection : ConnSeq := { outboundSeq := 0, buffer := [], delivered := [] }

/-- `Connection.NextSeq`: increment first, then return the new value. -/
def ConnSeq.NextSeq (c : ConnSeq) : Int × ConnSeq :=
  (int64Wrap (c.outboundSeq + 1), { c with outboundSeq := int64Wrap (c.outboundSeq + 1) })

/-- `Connection.SendMessage` followed by `SendRaw`: the seq is consumed
before the enqueue attempt; a full channel drops the message. -/
def ConnSeq.SendMessage (c : ConnSeq) : ConnSeq :=
  let n := ConnSeq.NextSeq c
  if n.2.buffer.length < sendBufferSize then { n.2 with buffer := n.2.buffer ++ [n.1] }
  else n.2

/-- One `WritePump` iteration: write the oldest buffered frame. -/
def ConnSeq.drainOne (c : ConnSeq) : ConnSeq :=
  match c.buffer with
  | [] => c
  | m :: rest => { c with buffer := rest, delivered := c.delivered ++ [m] }

inductive SendOp
  | send
  | drain
  deriving DecidableEq, Repr

/-- Run an interleaving of handler sends and write-pump drains. -/
def runOps (ops : List SendOp) (c : ConnSeq) : ConnSeq :=
  match ops with
  | [] => c
  | .send :: rest => runOps rest c.SendMessage
  | .drain :: rest => runOps rest c.drainOne

/-- The run never attempts a send while the channel is full. -/
def noOverflow (ops : List SendOp) (c : ConnSeq) : Bool :=
  match ops with
  | [] => true
  | .send :: rest =>
      decide (c.buffer.length < sendBufferSize) && noOverflow rest c.SendMessage
  | .drain :: rest => noOverflow rest c.drainOne

def countSends : List SendOp → Nat
  | [] => 0
  | .send :: rest => countSends rest + 1
  | .drain :: rest => countSends rest

/-- The seq carried by the (i+1)-st message: 1, 2, 3, ... -/
def seqOfIdx (i : Nat) : Int := (i : Int) + 1

/-- The seq numbers i+1, ..., i+n carried by messages a through a+n-1. -/
def seqSeg (a n : Nat) : List Int := (List.range n).map (fun i => seqOfIdx (a + i))

/-! ### Hub, connections and session handler (websocket package)

Connections are identified by `ConnId` (the Go pointer identity); a
store maps each identifier to the connection's lock-guarded fields.
The hub's three Go maps and the handler's ready tracker are association
lists.  Outbound traffic is recorded as an event list; per-connection
sequence numbering is covered by the `ConnSeq` model above. -/

abbrev ConnId := Nat

inductive ConnState
  | pending
  | active
  | closing
  deriving DecidableEq, Repr

structure Conn where
  state : ConnState
  playerID : String
  lobbyCode : String
  reconnectToken : String
  sessionExpiry : Int
  lastHeartbeat : Int
  sendClosed : Bool
  deriving DecidableEq, Repr

instance : Inhabited Conn :=
  ⟨{ state := .pending, playerID := "", lobbyCode := "", reconnectToken := "",
     sessionExpiry := 0, lastHeartbeat := 0, sendClosed := false }⟩

/-- The whole session core: lobby registry (lobby service), the
handler's ready tracker, the hub's three indices, and the connection
store (pointer dereference). -/
structure Sys where
  lobbies : Registry
  ready : List (String × List (String × Bool))
  hubConns : List ConnId
  hubLobbies : List (String × List ConnId)
  hubPlayers : List (String × ConnId)
  conns : List (ConnId × Conn)
  deriving DecidableEq, Repr

def Sys.connAt (s : Sys) (cid : ConnId) : Conn := (lookupA s.conns cid).getD default

def Sys.updateConn (s : Sys) (cid : ConnId) (f : Conn → Conn) : Sys :=
  { s with conns := insertA s.conns cid (f (s.connAt cid)) }

/-- `Connection.Close`: flip to Closing once, closing the send channel. -/
def Sys.closeConn (s : Sys) (cid : ConnId) : Sys :=
  if (s.connAt cid).state = .closing then s
  else s.updateConn cid (fun c => { c with state := .closing, sendClosed := true })

/-- `Hub.handleRegister`: add to the all-connections set. -/
def Sys.handleRegister (s : Sys) (cid : ConnId) : Sys :=
  { s with hubConns := if cid ∈ s.hubConns then s.hubConns else s.hubConns ++ [cid] }

/-- `Hub.handleUnregister`: early return when absent; otherwise remove
from the connection set, from the lobby index (dropping the entry when
it empties), and from the player index only when it still stores this
very connection, then close the connection.  `SetOnDisconnect` has no
caller anywhere in the repo, so the disconnect callback is nil. -/
def Sys.handleUnregister (s : Sys) (cid : ConnId) : Sys :=
  if cid ∈ s.hubConns then
    Sys.closeConn
      { s with
        hubConns := s.hubConns.erase cid,
        hubLobbies :=
          if (s.connAt cid).lobbyCode ≠ "" then
            match lookupA s.hubLobbies (s.connAt cid).lobbyCode with
            | none => s.hubLobbies
            | some set =>
              if set.erase cid = [] then eraseA s.hubLobbies (s.connAt cid).lobbyCode
              else insertA s.hubLobbies (s.connAt cid).lobbyCode (set.erase cid)
          else s.hubLobbies,
        hubPlayers :=
          if (s.connAt cid).playerID ≠ "" ∧
              lookupA s.hubPlayers (s.connAt cid).playerID = some cid then
            eraseA s.hubPlayers (s.connAt cid).playerID
          else s.hubPlayers } cid
  else s

/-- `Hub.AssociateWithLobby`: after authentication, index the connection
by lobby and by player (the player index is single-valued, so an
existing entry for the same player is overwritten). -/
def Sys.AssociateWithLobby (s : Sys) (cid : ConnId) : Sys :=
  if (s.connAt cid).lobbyCode = "" ∨ (s.connAt cid).playerID = "" then s
  else
    { s with
      hubLobbies := insertA s.hubLobbies (s.connAt cid).lobbyCode
        (if cid ∈ (lookupA s.hubLobbies (s.connAt cid).lobbyCode).getD [] then
          (lookupA s.hubLobbies (s.connAt cid).lobbyCode).getD []
         else (lookupA s.hubLobbies (s.connAt cid).lobbyCode).getD [] ++ [cid]),
      hubPlayers := insertA s.hubPlayers (s.connAt cid).playerID cid }

/-- `Hub.GetConnectionByPlayerID`. -/
def Sys.GetConnectionByPlayerID (s : Sys) (pid : String) : Option ConnId :=
  lookupA s.hubPlayers pid

/-- `Hub.LobbyConnectionCount`. -/
def Sys.LobbyConnectionCount (s : Sys) (code : String) : Nat :=
  ((lookupA s.hubLobbies code).getD []).length

/-- `Hub.IsPlayerConnected`. -/
def Sys.IsPlayerConnected (s : Sys) (pid : String) : Bool :=
  (lookupA s.hubPlayers pid).isSome

/-- `Handler.setPlayerReady`. -/
def setPlayerReady (r : List (String × List (String × Bool))) (code pid : String)
    (v : Bool) : List (String × List (String × Bool)) :=
  insertA r code (insertA ((lookupA r code).getD []) pid v)

/-- `Handler.isPlayerReady`: a missing lobby or player entry reads false,
like indexing a nil Go map. -/
def isPlayerReady (r : List (String × List (String × Bool))) (code pid : String) : Bool :=
  match lookupA r code with
  | none => false
  | some inner => (lookupA inner pid).getD false

/-- `Handler.clearPlayerReadyState`: per-player removal, dropping the
lobby entry when its inner map empties. -/
def clearPlayerReadyState (r : List (String × List (String × Bool))) (code pid : String) :
    List (String × List (String × Bool)) :=
  match lookupA r code with
  | none => r
  | some inner =>
    if eraseA inner pid = [] then eraseA r code
    else insertA r code (eraseA inner pid)

/-- `Handler.clearLobbyReadyState`. -/
def clearLobbyReadyState (r : List (String × List (String × Bool))) (code : String) :
    List (String × List (String × Bool)) :=
  eraseA r code

inductive ErrorCode
  | authRequired
  | authFailed
  | sessionExpired
  | lobbyNotFound
  | lobbyFull
  | invalidState
  | invalidAction
  | notYourTurn
  | turnMismatch
  | actionTimeout
  | malformedMessage
  | versionMismatch
  | internalError
  | playerNotInLobby
  deriving DecidableEq, Repr

/-- `IsRecoverable` from errors.go. -/
def IsRecoverable : ErrorCode → Bool
  | .invalidState => true
  | .invalidAction => true
  | .notYourTurn => true
  | .turnMismatch => true
  | .malformedMessage => true
  | _ => false

inductive OutMsg
  | errorMsg (code : ErrorCode) (recoverable : Bool) (correlationID : String)
  | authenticated (playerID reconnectToken : String) (sessionExpiresAt : Int)
      (correlationID : String)
  | heartbeatAck (serverTime : Int) (correlationID : String)
  | lobbyUpdated (event : String)
  | gameStarting (startsAt : Int) (countdownSec : Nat)
  | gameStarted (gameID : String)
  deriving DecidableEq, Repr

inductive Event
  | send (target : ConnId) (msg : OutMsg)
  | broadcast (lobbyCode : String) (msg : OutMsg)
  deriving DecidableEq, Repr

/-- `Connection.SendError`: the payload built by `NewErrorPayload`
carries `IsRecoverable(code)`; both branches of SendError leave the
outbound correlation ID equal to the caller-supplied one (an empty ID
stays empty). -/
def sendError (cid : ConnId) (code : ErrorCode) (correlationID : String) : Event :=
  .send cid (.errorMsg code (IsRecoverable code) correlationID)

structure AuthPayload where
  playerID : String
  sessionToken : String
  lobbyCode : String
  reconnectToken : String
  lastSeq : Int
  deriving DecidableEq, Repr

/-- The JSON payload of an inbound envelope, by what it parses as. -/
inductive Payload
  | auth (p : AuthPayload)
  | ready (ready : Bool)
  | emptyPayload
  | badPayload
  deriving DecidableEq, Repr

structure Envelope where
  type : String
  version : Int
  timestamp : Int
  correlationID : String
  seq : Int
  payload : Payload
  deriving DecidableEq, Repr

/-- `ProtocolVersion` from the source. -/
def ProtocolVersion : Int := 1

/-- `sessionDuration` (24h) in milliseconds (times are `UnixMilli`). -/
def sessionDurationMs : Int := 24 * 60 * 60 * 1000

/-- `Envelope.ParsePayload` into `AuthenticatePayload`. -/
def parseAuth : Payload → Option AuthPayload
  | .auth p => some p
  | _ => none

/-- `Envelope.ParsePayload` into `SetReadyPayload`. -/
def parseSetReady : Payload → Option Bool
  | .ready b => some b
  | _ => none

/-- `Handler.sendLobbyState`: a `lobby_updated`/`state_changed` message
to one connection (snapshot contents abstracted to the event tag). -/
def sendLobbyState (cid : ConnId) : Event := .send cid (.lobbyUpdated "state_changed")

/-- `Handler.checkAndStartGame`: lobby has exactly 2 players, the hub
counts 2 connections in it, every player is marked ready and connected;
then broadcast `game_starting` (starts_at now, countdown 0) and
`game_started` (game_id = lobby code) and clear the lobby's ready state.
The Go loop reads `readyState[lobbyCode]` directly; indexing a nil map
yields false, which is exactly `isPlayerReady`. -/
def Sys.checkAndStartGame (s : Sys) (code : String) (now : Int) : Sys × List Event :=
  match lookupA s.lobbies code with
  | none => (s, [])
  | some lobby =>
    if lobby.GetPlayers.length ≠ 2 then (s, [])
    else if s.LobbyConnectionCount code ≠ 2 then (s, [])
    else if lobby.GetPlayers.all
        (fun p => isPlayerReady s.ready code p.id && s.IsPlayerConnected p.id) then
      ({ s with ready := clearLobbyReadyState s.ready code },
       [.broadcast code (.gameStarting now 0),
        .broadcast code (.gameStarted code)])
    else (s, [])

/-- `Handler.handleSetReady`. -/
def Sys.handleSetReady (s : Sys) (cid : ConnId) (env : Envelope) (now : Int) :
    Sys × List Event :=
  if (s.connAt cid).state ≠ .active then
    (s, [sendError cid .authRequired env.correlationID])
  else
    match parseSetReady env.payload with
    | none => (s, [sendError cid .malformedMessage env.correlationID])
    | some ready =>
      let s1 := { s with ready := (setPlayerReady s.ready (s.connAt cid).lobbyCode
                    (s.connAt cid).playerID ready) }
      match lookupA s1.lobbies (s.connAt cid).lobbyCode with
      | none => (s1, [sendError cid .lobbyNotFound env.correlationID])
      | some lobby =>
        (((s1.checkAndStartGame (s.connAt cid).lobbyCode now)).1,
         .broadcast lobby.code (.lobbyUpdated "player_ready_changed") ::
           (s1.checkAndStartGame (s.connAt cid).lobbyCode now).2)

/-- `Handler.handleAuthenticate`.  `conn.Authenticate` draws a fresh
random token; the drawn value is the `freshToken` parameter. -/
def Sys.handleAuthenticate (s : Sys) (cid : ConnId) (env : Envelope) (now : Int)
    (freshToken : String) : Sys × List Event :=
  match parseAuth env.payload with
  | none => (s, [sendError cid .malformedMessage env.correlationID])
  | some p =>
    if p.playerID = "" ∨ p.lobbyCode = "" then
      (s, [sendError cid .authFailed env.correlationID])
    else
      match lookupA s.lobbies p.lobbyCode with
      | none => (s, [sendError cid .lobbyNotFound env.correlationID])
      | some lobby =>
        if lobby.HasPlayer p.playerID = false then
          (s, [sendError cid .playerNotInLobby env.correlationID])
        else if lobby.GetState ≠ .waiting ∧ lobby.GetState ≠ .ready ∧
            lobby.GetState ≠ .active then
          (s, [sendError cid .invalidState env.correlationID])
        else
          let s1 :=
            if p.reconnectToken ≠ "" then
              match s.GetConnectionByPlayerID p.playerID with
              | some oldCid =>
                if (s.connAt oldCid).reconnectToken = p.reconnectToken ∧
                    now < (s.connAt oldCid).sessionExpiry then
                  s.handleUnregister oldCid
                else s
              | none => s
            else s
          let s2 := s1.updateConn cid (fun c =>
            { c with playerID := p.playerID, lobbyCode := p.lobbyCode,
                     state := .active, reconnectToken := freshToken,
                     sessionExpiry := now + sessionDurationMs })
          (s2.AssociateWithLobby cid,
           [.send cid (.authenticated p.playerID freshToken (now + sessionDurationMs)
              env.correlationID),
            sendLobbyState cid])

/-- `Handler.handleHeartbeat`. -/
def Sys.handleHeartbeat (s : Sys) (cid : ConnId) (env : Envelope) (now : Int) :
    Sys × List Event :=
  if (s.connAt cid).state ≠ .active then
    (s, [sendError cid .authRequired env.correlationID])
  else
    (s.updateConn cid (fun c => { c with lastHeartbeat := now }),
     [.send cid (.heartbeatAck now env.correlationID)])

/-- `Handler.handleRequestLobbyState`. -/
def Sys.handleRequestLobbyState (s : Sys) (cid : ConnId) (env : Envelope) :
    Sys × List Event :=
  if (s.connAt cid).state ≠ .active then
    (s, [sendError cid .authRequired env.correlationID])
  else
    match lookupA s.lobbies (s.connAt cid).lobbyCode with
    | none => (s, [sendError cid .lobbyNotFound env.correlationID])
    | some _ => (s, [sendLobbyState cid])

/-- `Handler.handleSubmitAction`: battle placeholder. -/
def Sys.handleSubmitAction (s : Sys) (cid : ConnId) (env : Envelope) : Sys × List Event :=
  if (s.connAt cid).state ≠ .active then
    (s, [sendError cid .authRequired env.correlationID])
  else (s, [sendError cid .invalidState env.correlationID])

/-- `Handler.handleRequestGameState`: battle placeholder. -/
def Sys.handleRequestGameState (s : Sys) (cid : ConnId) (env : Envelope) :
    Sys × List Event :=
  if (s.connAt cid).state ≠ .active then
    (s, [sendError cid .authRequired env.correlationID])
  else (s, [sendError cid .invalidState env.correlationID])

/-- `Handler.handleRequestRematch`: battle placeholder. -/
def Sys.handleRequestRematch (s : Sys) (cid : ConnId) (env : Envelope) :
    Sys × List Event :=
  if (s.connAt cid).state ≠ .active then
    (s, [sendError cid .authRequired env.correlationID])
  else (s, [sendError cid .invalidState env.correlationID])

/-- The tail of `Handler.handleLeaveGame`: notify the remaining players
when the lobby still exists, then unregister the connection. -/
def Sys.leaveGameFinish (s : Sys) (cid : ConnId) (code : String) : Sys × List Event :=
  match lookupA s.lobbies code with
  | some _ => (s.handleUnregister cid, [.broadcast code (.lobbyUpdated "player_left")])
  | none => (s.handleUnregister cid, [])

/-- `Handler.handleLeaveGame`. -/
def Sys.handleLeaveGame (s : Sys) (cid : ConnId) (env : Envelope) : Sys × List Event :=
  if (s.connAt cid).state ≠ .active then
    (s, [sendError cid .authRequired env.correlationID])
  else
    let s1 := { s with ready := (clearPlayerReadyState s.ready (s.connAt cid).lobbyCode
                  (s.connAt cid).playerID) }
    match LeaveLobby s1.lobbies (s.connAt cid).lobbyCode (s.connAt cid).playerID with
    | .error .lobbyNotFound => s1.leaveGameFinish cid (s.connAt cid).lobbyCode
    | .error (.domain .playerNotFound) => s1.leaveGameFinish cid (s.connAt cid).lobbyCode
    | .error _ => (s1, [sendError cid .internalError env.correlationID])
    | .ok lobbies2 =>
        Sys.leaveGameFinish { s1 with lobbies := lobbies2 } cid (s.connAt cid).lobbyCode

/-- `Handler.handleMessage`: the version gate precedes every dispatch. -/
def Sys.handleMessage (s : Sys) (cid : ConnId) (env : Envelope) (now : Int)
    (freshToken : String) : Sys × List Event :=
  if env.version ≠ ProtocolVersion then
    (s, [sendError cid .versionMismatch env.correlationID])
  else
    match env.type with
    | "authenticate" => s.handleAuthenticate cid env now freshToken
    | "heartbeat" => s.handleHeartbeat cid env now
    | "request_lobby_state" => s.handleRequestLobbyState cid env
    | "set_ready" => s.handleSetReady cid env now
    | "submit_action" => s.handleSubmitAction cid env
    | "request_game_state" => s.handleRequestGameState cid env
    | "request_rematch" => s.handleRequestRematch cid env
    | "leave_game" => s.handleLeaveGame cid env
    | _ => (s, [sendError cid .malformedMessage env.correlationID])

def sysEmpty : Sys :=
  { lobbies := [], ready := [], hubConns := [], hubLobbies := [], hubPlayers := [],
    conns := [] }

def envV999 : Envelope :=
  { type := "authenticate", version := 999, timestamp := 0, correlationID := "corr-1",
    seq := 0, payload := .emptyPayload }

/-! ### Concrete hub fixture -/

def lobbyOneP : Lobby :=
  { code := "C"
    state := .waiting
    players := [{ id := "p", username := "P" }]
    hostID := "p"
    maxPlayers := 2
    createdAt := 0 }

def connA : Conn :=
  { state := .active, playerID := "p", lobbyCode := "C", reconnectToken := "t1",
    sessionExpiry := 0, lastHeartbeat := 0, sendClosed := false }

def connB : Conn :=
  { state := .pending, playerID := "", lobbyCode := "", reconnectToken := "",
    sessionExpiry := 0, lastHeartbeat := 0, sendClosed := false }

/-- Player "p" is authenticated on connection 0 (A); connection 1 (B) is
registered but still pending. -/
def sysAB : Sys :=
  { lobbies := [("C", lobbyOneP)]
    ready := []
    hubConns := [0, 1]
    hubLobbies := [("C", [0])]
    hubPlayers := [("p", 0)]
    conns := [(0, connA), (1, connB)] }

/-- Two ready, connected players in lobby C. -/
def sysReady : Sys :=
  { lobbies := [("C", lobbyTwo)]
    ready := [("C", [("h", true), ("p", true)])]
    hubConns := [0, 1]
    hubLobbies := [("C", [0, 1])]
    hubPlayers := [("h", 0), ("p", 1)]
    conns := [] }

/-! ### Claim C3: second authentication without reconnect token -/

def envAuthB : Envelope :=
  { type := "authenticate", version := 1, timestamp := 0, correlationID := "",
    seq := 0,
    payload := .auth { playerID := "p", sessionToken := "", lobbyCode := "C",
                       reconnectToken := "", lastSeq := 0 } }

theorem lookupA_insertA {α β : Type} [DecidableEq α] (l : List (α × β)) (key k : α) (v : β) :
    lookupA (insertA l key v) k = if k = key then some v else lookupA l k := by
  induction l with
  | nil =>
    by_cases h : k = key
    · subst h; simp [insertA, lookupA]
    · simp [insertA, lookupA, h, Ne.symm h]
  | cons hd tl ih =>
    obtain ⟨k0, w⟩ := hd
    by_cases h0 : k0 = key
    · subst h0
      by_cases h : k = k0
      · subst h; simp [insertA, lookupA]
      · simp [insertA, lookupA, h, Ne.symm h]
    · by_cases h : k0 = k
      · subst h
        simp [insertA, lookupA, h0, Ne.symm h0]
      · simp [insertA, lookupA, h0, h, ih]

theorem lookupA_eraseA {α β : Type} [DecidableEq α] (l : List (α × β)) (key k : α) :
    lookupA (eraseA l key) k = if k = key then none else lookupA l k := by
  induction l with
  | nil =>
    by_cases h : k = key <;> simp [eraseA, lookupA, h]
  | cons hd tl ih =>
    obtain ⟨k0, w⟩ := hd
    by_cases h0 : k0 = key
    · subst h0
      have hstep : eraseA ((k0, w) :: tl) k0 = eraseA tl k0 := by simp [eraseA]
      rw [hstep, ih]
      by_cases h : k = k0
      · simp [h]
      · simp [lookupA, h, Ne.symm h]
    · have hstep : eraseA ((k0, w) :: tl) key = (k0, w) :: eraseA tl key := by
        simp [eraseA, h0]
      rw [hstep]
      by_cases h : k0 = k
      · subst h
        simp [lookupA, h0]
      · simp [lookupA, h, ih]

theorem insertA_fresh {α β : Type} [DecidableEq α] (l : List (α × β)) (key : α) (v : β)
    (h : lookupA l key = none) : insertA l key v = l ++ [(key, v)] := by
  induction l with
  | nil => simp [insertA]
  | cons hd tl ih =>
    obtain ⟨k0, w⟩ := hd
    by_cases h0 : k0 = key
    · subst h0; simp [lookupA] at h
    · simp [lookupA, h0] at h
      simp [insertA, h0, ih h]

theorem domInv_new (code hostID hostUsername : String) (now : Int) :
    DomInv (NewLobby code hostID hostUsername now) := by
  simp [DomInv, NewLobby]

theorem domInv_add {l l' : Lobby} {id username : String}
    (hinv : DomInv l) (h : l.AddPlayer id username = .ok l') : DomInv l' := by
  obtain ⟨hmax, hle, hw, hr⟩ := hinv
  unfold Lobby.AddPlayer at h
  split_ifs at h with h1 h2 h3 <;> try simp at h
  have hwaiting : l.state = .waiting := not_not.mp h1
  have hlt : l.players.length < l.maxPlayers := Nat.lt_of_not_ge h3
  subst h
  unfold DomInv
  have hcases : l.players.length = 0 ∨ l.players.length = 1 := by omega
  rcases hcases with h0 | h0 <;> simp [h0, hwaiting, hmax]

theorem removeFirst_length {id : String} :
    ∀ {ps ps' : List Player}, removeFirst id ps = some ps' →
      ps'.length + 1 = ps.length := by
  intro ps
  induction ps with
  | nil => intro ps' h; simp [removeFirst] at h
  | cons p rest ih =>
    intro ps' h
    unfold removeFirst at h
    split at h
    · injection h with h; subst h; simp
    · cases hrec : removeFirst id rest with
      | none => rw [hrec] at h; simp at h
      | some tail =>
        rw [hrec] at h
        injection h with h
        subst h
        simp [ih hrec]

theorem domInv_remove {l l' : Lobby} {id : String}
    (hinv : DomInv l) (h : l.RemovePlayer id = .ok l') : DomInv l' := by
  obtain ⟨hmax, hle, hw, hr⟩ := hinv
  unfold Lobby.RemovePlayer at h
  cases hrem : removeFirst id l.players with
  | none => rw [hrem] at h; simp at h
  | some players =>
    rw [hrem] at h
    injection h with h
    subst h
    have hlen := removeFirst_length hrem
    unfold DomInv
    cases hst : l.state with
    | waiting =>
      rw [hst] at hw
      simp at hw
      have h0 : players.length = 0 := by omega
      simp [h0, hmax]
    | ready =>
      rw [hst] at hr
      simp at hr
      have h1 : players.length = 1 := by omega
      simp [h1, hmax]
    | active =>
      simp [hmax]
      omega

theorem domInv_start {l l' : Lobby}
    (hinv : DomInv l) (h : l.Start = .ok l') : DomInv l' := by
  obtain ⟨hmax, hle, hw, hr⟩ := hinv
  unfold Lobby.Start at h
  split_ifs at h with h1 h2 <;> try simp at h
  have hready : l.state = .ready := not_not.mp h1
  rw [hready] at hr
  simp at hr
  subst h
  unfold DomInv
  simp [hmax]
  omega

theorem domInv_of_reach {l : Lobby} (h : Reach l) : DomInv l := by
  induction h with
  | create code hostID hostUsername now => exact domInv_new code hostID hostUsername now
  | add id username _ hstep ih => exact domInv_add ih hstep
  | remove id _ hstep ih => exact domInv_remove ih hstep
  | start _ hstep ih => exact domInv_start ih hstep

theorem addPlayer_ok_shape {l l' : Lobby} {id username : String}
    (h : l.AddPlayer id username = .ok l') :
    l.state = .waiting ∧ ¬ (l.players.any fun p => p.id = id) = true ∧
    l.players.length < l.maxPlayers ∧
    l' = { l with
           players := l.players ++ [({ id := id, username := username } : Player)],
           state := if l.players.length + 1 = l.maxPlayers then .ready else l.state } := by
  unfold Lobby.AddPlayer at h
  split_ifs at h with h1 h2 h3 <;> try simp at h
  exact ⟨not_not.mp h1, h2, Nat.lt_of_not_ge h3, h.symm⟩

theorem removeFirst_sublist {id : String} :
    ∀ {ps ps' : List Player}, removeFirst id ps = some ps' → ps'.Sublist ps := by
  intro ps
  induction ps with
  | nil => intro ps' h; simp [removeFirst] at h
  | cons p rest ih =>
    intro ps' h
    unfold removeFirst at h
    split at h
    · injection h with h; subst h
      exact List.sublist_cons_self p rest
    · cases hrec : removeFirst id rest with
      | none => rw [hrec] at h; simp at h
      | some tail =>
        rw [hrec] at h
        injection h with h
        subst h
        exact (ih hrec).cons₂ p

theorem removeFirst_mem {id : String} :
    ∀ {ps ps' : List Player} {q : Player}, removeFirst id ps = some ps' →
      q ∈ ps → q.id ≠ id → q ∈ ps' := by
  intro ps
  induction ps with
  | nil => intro ps' q h; simp [removeFirst] at h
  | cons p rest ih =>
    intro ps' q h hq hne
    unfold removeFirst at h
    split at h
    · next hp =>
      injection h with h
      subst h
      rcases List.mem_cons.mp hq with rfl | hq2
      · exact absurd hp hne
      · exact hq2
    · cases hrec : removeFirst id rest with
      | none => rw [hrec] at h; simp at h
      | some tail =>
        rw [hrec] at h
        injection h with h
        subst h
        rcases List.mem_cons.mp hq with rfl | hq2
        · exact List.mem_cons_self _ _
        · exact List.mem_cons_of_mem _ (ih hrec hq2 hne)

theorem nodup_append_new (ps : List Player) (id username : String)
    (hnd : (ps.map Player.id).Nodup)
    (hdup : ¬ (ps.any fun p => p.id = id) = true) :
    ((ps ++ [({ id := id, username := username } : Player)]).map Player.id).Nodup := by
  simp only [List.map_append, List.map_cons, List.map_nil]
  rw [List.nodup_append]
  refine ⟨hnd, List.nodup_singleton _, ?_⟩
  intro x hx hxs
  simp at hxs
  simp at hdup
  rcases List.mem_map.mp hx with ⟨q, hq, hqid⟩
  exact hdup q hq (by rw [← hxs, hqid])

theorem svcInv_create {s : Registry} {code hostID hostUsername : String} {now : Int}
    (hinv : SvcInv s) :
    SvcInv (CreateLobby s code hostID hostUsername now).1 := by
  intro c lobby hl
  simp only [CreateLobby] at hl
  rw [lookupA_insertA] at hl
  by_cases hc : c = code
  · rw [if_pos hc] at hl
    injection hl with hl
    subst hl
    refine ⟨domInv_new code hostID hostUsername now, ?_, ?_, ?_⟩ <;>
      simp [NewLobby, playerIDs]
  · rw [if_neg hc] at hl
    exact hinv c lobby hl

theorem svcInv_join {s : Registry} {r : Registry × Lobby} {code pid uname : String}
    (hinv : SvcInv s) (h : JoinLobby s code pid uname = .ok r) : SvcInv r.1 := by
  unfold JoinLobby at h
  split at h
  · simp at h
  rename_i lobby hl
  split at h
  · simp at h
  rename_i lobby' hadd
  injection h with h
  subst h
  intro c lb hlb
  simp only at hlb
  rw [lookupA_insertA] at hlb
  obtain ⟨hdi, hnd, hne, hhost⟩ := hinv code lobby hl
  by_cases hc : c = code
  · rw [if_pos hc] at hlb
    injection hlb with hlb
    subst hlb
    obtain ⟨hw, hdup, hlt, hshape⟩ := addPlayer_ok_shape hadd
    refine ⟨domInv_add hdi hadd, ?_, ?_, ?_⟩
    · rw [hshape]
      simpa [playerIDs] using nodup_append_new lobby.players pid uname hnd hdup
    · rw [hshape]
      simp
    · rw [hshape]
      simp only [playerIDs, List.map_append]
      exact List.mem_append_left _ hhost
  · rw [if_neg hc] at hlb
    exact hinv c lb hlb

theorem svcInv_leave {s s' : Registry} {code pid : String}
    (hinv : SvcInv s) (h : LeaveLobby s code pid = .ok s') : SvcInv s' := by
  unfold LeaveLobby at h
  split at h
  · simp at h
  rename_i lobby hl
  split at h
  · simp at h
  rename_i lobby' hrm
  obtain ⟨hdi, hnd, hne, hhost⟩ := hinv code lobby hl
  split_ifs at h with hz
  · injection h with h
    subst h
    intro c lb hlb
    rw [lookupA_eraseA] at hlb
    split_ifs at hlb
    exact hinv c lb hlb
  · injection h with h
    subst h
    intro c lb hlb
    rw [lookupA_insertA] at hlb
    by_cases hc : c = code
    · rw [if_pos hc] at hlb
      injection hlb with hlb
      subst hlb
      have hrm2 := hrm
      unfold Lobby.RemovePlayer at hrm2
      split at hrm2
      · simp at hrm2
      rename_i players hrem
      injection hrm2 with hrm2
      have hne2 : players ≠ [] := by
        intro hemp
        apply hz
        rw [← hrm2]
        simp [Lobby.PlayerCount, hemp]
      refine ⟨domInv_remove hdi hrm, ?_, ?_, ?_⟩
      · rw [← hrm2]
        simp only [playerIDs]
        exact ((removeFirst_sublist hrem).map Player.id).nodup
          (by simpa [playerIDs] using hnd)
      · rw [← hrm2]
        simpa using hne2
      · rw [← hrm2]
        simp only [playerIDs]
        by_cases hh : pid = lobby.hostID
        · cases hps : players with
          | nil => exact absurd hps hne2
          | cons q qs =>
            simp [hh, hps]
        · simp only [if_neg hh]
          rcases List.mem_map.mp hhost with ⟨q, hq, hqid⟩
          have hqne : q.id ≠ pid := by
            rw [hqid]
            exact fun hcon => hh hcon.symm
          exact List.mem_map.mpr ⟨q, removeFirst_mem hrem hq hqne, hqid⟩
    · rw [if_neg hc] at hlb
      exact hinv c lb hlb

theorem svcInv_start {s s' : Registry} {code pid : String}
    (hinv : SvcInv s) (h : StartGame s code pid = .ok s') : SvcInv s' := by
  unfold StartGame at h
  split at h
  · simp at h
  rename_i lobby hl
  split_ifs at h with hhost
  split at h
  · simp at h
  rename_i lobby' hst
  injection h with h
  subst h
  obtain ⟨hdi, hnd, hne, hmem⟩ := hinv code lobby hl
  have hshape : lobby' = { lobby with state := .active } := by
    have hst2 := hst
    unfold Lobby.Start at hst2
    split_ifs at hst2
    injection hst2 with hst2
    exact hst2.symm
  intro c lb hlb
  rw [lookupA_insertA] at hlb
  by_cases hc : c = code
  · rw [if_pos hc] at hlb
    injection hlb with hlb
    subst hlb
    exact ⟨domInv_start hdi hst, by rw [hshape]; exact hnd,
           by rw [hshape]; exact hne, by rw [hshape]; exact hmem⟩
  · rw [if_neg hc] at hlb
    exact hinv c lb hlb

theorem svcInv_of_sreach {s : Registry} (h : SReach s) : SvcInv s := by
  induction h with
  | empty => intro c lb hlb; simp [lookupA] at hlb
  | create code hostID hostUsername now _ _ ih => exact svcInv_create ih
  | join code pid uname _ hstep ih => exact svcInv_join ih hstep
  | leave code pid _ hstep ih => exact svcInv_leave ih hstep
  | start code pid _ hstep ih => exact svcInv_start ih hstep

theorem lobbyTwo_reach : Reach lobbyTwo :=
  Reach.add "p" "P" (Reach.create "C" "h" "H" 0) (by rfl)

/-! ### Claims C1, C4, C6, C7, C10 -/

/-- C1: for every lobby in state READY, `AddPlayer` with a player ID not
already in the lobby returns INVALID_STATE_FOR_JOIN rather than
LOBBY_FULL, because the state check precedes the capacity check; over
HTTP the joiner receives 409 with body error
"cannot join lobby in current state". -/
theorem claim1_state_check_precedes_capacity
    (s : Registry) (code : String) (l : Lobby) (pid uname : String)
    (hl : lookupA s code = some l) (hready : l.state = .ready)
    (hnew : l.HasPlayer pid = false) :
    l.AddPlayer pid uname = .error .invalidStateForJoin ∧
    l.AddPlayer pid uname ≠ .error .lobbyFull ∧
    controllerJoin s code pid uname =
      .error (409, "cannot join lobby in current state") := by
  have hstate : l.state ≠ LobbyState.waiting := by rw [hready]; simp
  have hadd : l.AddPlayer pid uname = .error .invalidStateForJoin := by
    unfold Lobby.AddPlayer
    simp [hstate]
  refine ⟨hadd, by simp [hadd], ?_⟩
  unfold controllerJoin JoinLobby
  rw [hl]
  simp only [hadd]
  rfl

/-- C1 witness: the concrete full lobby rejects a third joiner with
INVALID_STATE_FOR_JOIN and the HTTP response is 409 with the
invalid-state body. -/
theorem claim1_witness :
    lobbyTwo.AddPlayer "x" "X" = .error .invalidStateForJoin ∧
    lobbyTwo.AddPlayer "x" "X" ≠ .error .lobbyFull ∧
    controllerJoin [("C", lobbyTwo)] "C" "x" "X" =
      .error (409, "cannot join lobby in current state") :=
  claim1_state_check_precedes_capacity [("C", lobbyTwo)] "C" lobbyTwo "x" "X"
    (by rfl) (by rfl) (by rfl)

/-- C4: every lobby reachable from create via add_player, remove_player
and start satisfies both state-count biconditionals: WAITING iff below
capacity and not ACTIVE, READY iff at capacity and not ACTIVE. -/
theorem claim4_state_count_biconditionals (l : Lobby) (h : Reach l) :
    (l.state = .waiting ↔ l.players.length < l.maxPlayers ∧ l.state ≠ .active) ∧
    (l.state = .ready ↔ l.players.length = l.maxPlayers ∧ l.state ≠ .active) := by
  obtain ⟨_, _, hw, hr⟩ := domInv_of_reach h
  exact ⟨hw, hr⟩

/-- C4 witness: the biconditionals at the freshly created lobby. -/
theorem claim4_witness :
    ((NewLobby "C" "h" "H" 0).state = .waiting ↔
      (NewLobby "C" "h" "H" 0).players.length < (NewLobby "C" "h" "H" 0).maxPlayers ∧
      (NewLobby "C" "h" "H" 0).state ≠ .active) ∧
    ((NewLobby "C" "h" "H" 0).state = .ready ↔
      (NewLobby "C" "h" "H" 0).players.length = (NewLobby "C" "h" "H" 0).maxPlayers ∧
      (NewLobby "C" "h" "H" 0).state ≠ .active) :=
  claim4_state_count_biconditionals (NewLobby "C" "h" "H" 0)
    (Reach.create "C" "h" "H" 0)

/-- C6: in every registry reachable through the service, the host of a
nonempty resident lobby is one of its players; and removing the current
host, when other players remain, reassigns the host to the first
remaining player in insertion order, observable on the next read. -/
theorem claim6_host_membership_and_reassignment :
    (∀ (s : Registry) (code : String) (l : Lobby), SReach s →
       lookupA s code = some l → l.players ≠ [] →
       l.GetHostID ∈ playerIDs l) ∧
    (∀ (l l' : Lobby) (q : Player), l.RemovePlayer l.GetHostID = .ok l' →
       l'.players.head? = some q → l'.GetHostID = q.id) := by
  constructor
  · intro s code l hs hl _
    exact ((svcInv_of_sreach hs) code l hl).2.2.2
  · intro l l' q h hhead
    unfold Lobby.RemovePlayer at h
    split at h
    · simp at h
    rename_i players hrem
    injection h with h
    subst h
    simp only [Lobby.GetHostID] at hhead ⊢
    cases players with
    | nil => simp at hhead
    | cons p rest =>
      simp at hhead
      subst hhead
      simp

/-- C6 witness: the created lobby's host is a member, and after the host
of the two-player lobby leaves, the next read of the host ID returns
the remaining player. -/
theorem claim6_witness :
    (NewLobby "C" "h" "H" 0).GetHostID ∈ playerIDs (NewLobby "C" "h" "H" 0) ∧
    ({ code := "C", state := .waiting,
       players := [({ id := "p", username := "P" } : Player)],
       hostID := "p", maxPlayers := 2, createdAt := 0 } : Lobby).GetHostID = "p" := by
  constructor
  · exact claim6_host_membership_and_reassignment.1
      (CreateLobby [] "C" "h" "H" 0).1 "C" (NewLobby "C" "h" "H" 0)
      (SReach.create "C" "h" "H" 0 SReach.empty rfl) (by rfl) (by simp [NewLobby])
  · exact claim6_host_membership_and_reassignment.2 lobbyTwo
      { code := "C", state := .waiting,
        players := [({ id := "p", username := "P" } : Player)],
        hostID := "p", maxPlayers := 2, createdAt := 0 }
      { id := "p", username := "P" } (by rfl) (by rfl)

/-- C7: creating a lobby puts it in the listing; removing the last
remaining player through leave deletes the lobby from the registry, so a
subsequent get returns LOBBY_NOT_FOUND. -/
theorem claim7_create_list_and_leave_delete :
    (∀ (s : Registry) (code hostID hostUsername : String) (now : Int),
       lookupA s code = none →
       (CreateLobby s code hostID hostUsername now).2 ∈
         ListLobbies (CreateLobby s code hostID hostUsername now).1) ∧
    (∀ (s : Registry) (code : String) (l : Lobby) (p : Player),
       lookupA s code = some l → l.players = [p] →
       ∃ s', LeaveLobby s code p.id = .ok s' ∧
             GetLobby s' code = .error .lobbyNotFound) := by
  constructor
  · intro s code hostID hostUsername now hfresh
    unfold CreateLobby ListLobbies
    simp [insertA_fresh s code _ hfresh]
  · intro s code l p hl hone
    refine ⟨eraseA s code, ?_, ?_⟩
    · simp [LeaveLobby, hl, Lobby.RemovePlayer, hone, removeFirst, Lobby.PlayerCount]
    · unfold GetLobby
      rw [lookupA_eraseA]
      simp

/-- C7 witness: concrete create-then-list and leave-then-get runs. -/
theorem claim7_witness :
    ((CreateLobby [] "C" "h" "H" 0).2 ∈
       ListLobbies (CreateLobby [] "C" "h" "H" 0).1) ∧
    (∃ s', LeaveLobby [("D", NewLobby "D" "h" "H" 0)] "D" "h" = .ok s' ∧
           GetLobby s' "D" = .error .lobbyNotFound) := by
  constructor
  · exact claim7_create_list_and_leave_delete.1 [] "C" "h" "H" 0 rfl
  · exact claim7_create_list_and_leave_delete.2 [("D", NewLobby "D" "h" "H" 0)] "D"
      (NewLobby "D" "h" "H" 0) { id := "h", username := "H" } (by rfl) (by rfl)

/-- C10: on every reachable lobby the NOT_ENOUGH_PLAYERS branch of Start
is dead: Start fails with INVALID_STATE_FOR_START exactly when the state
is not READY and otherwise succeeds, transitioning to ACTIVE. -/
theorem claim10_not_enough_players_unreachable (l : Lobby) (h : Reach l) :
    l.Start ≠ .error .notEnoughPlayers ∧
    (l.state ≠ .ready → l.Start = .error .invalidStateForStart) ∧
    (l.state = .ready → l.Start = .ok { l with state := .active }) := by
  obtain ⟨hmax, hle, hw, hr⟩ := domInv_of_reach h
  by_cases hs : l.state = .ready
  · have hlen : l.players.length = l.maxPlayers := (hr.mp hs).1
    have hok : l.Start = .ok { l with state := .active } := by
      unfold Lobby.Start
      simp [hs, hlen]
    exact ⟨by simp [hok], fun hn => absurd hs hn, fun _ => hok⟩
  · have herr : l.Start = .error .invalidStateForStart := by
      unfold Lobby.Start
      simp [hs]
    exact ⟨by simp [herr], fun _ => herr, fun hk => absurd hk hs⟩

/-- C10 witness: the reachable full lobby starts successfully and never
reports NOT_ENOUGH_PLAYERS. -/
theorem claim10_witness :
    lobbyTwo.Start ≠ .error .notEnoughPlayers ∧
    (lobbyTwo.state ≠ .ready → lobbyTwo.Start = .error .invalidStateForStart) ∧
    (lobbyTwo.state = .ready → lobbyTwo.Start = .ok { lobbyTwo with state := .active }) :=
  claim10_not_enough_players_unreachable lobbyTwo lobbyTwo_reach

theorem int64Wrap_eq_self {x : Int} (h1 : -(2 ^ 63) ≤ x) (h2 : x < 2 ^ 63) :
    int64Wrap x = x := by
  unfold int64Wrap
  have hmod : (x + 2 ^ 63) % 2 ^ 64 = x + 2 ^ 63 := by
    apply Int.emod_eq_of_lt
    · omega
    · omega
  omega

theorem runOps_invariant : ∀ (ops : List SendOp) (c : ConnSeq),
    noOverflow ops c = true →
    0 ≤ c.outboundSeq →
    c.outboundSeq + countSends ops ≤ 2 ^ 63 - 1 →
    c.delivered ++ c.buffer = (List.range c.outboundSeq.toNat).map seqOfIdx →
    (runOps ops c).delivered ++ (runOps ops c).buffer =
      (List.range (runOps ops c).outboundSeq.toNat).map seqOfIdx ∧
    (runOps ops c).outboundSeq = c.outboundSeq + countSends ops := by
  intro ops
  induction ops with
  | nil =>
    intro c _ _ _ hinv
    exact ⟨hinv, by simp [runOps, countSends]⟩
  | cons op rest ih =>
    intro c hov hpos hbound hinv
    cases op with
    | send =>
      unfold noOverflow at hov
      rw [Bool.and_eq_true] at hov
      obtain ⟨hroom2, hov2⟩ := hov
      have hroom : c.buffer.length < sendBufferSize := of_decide_eq_true hroom2
      have hcnt : countSends (SendOp.send :: rest) = countSends rest + 1 := rfl
      rw [hcnt] at hbound
      have hwrap : int64Wrap (c.outboundSeq + 1) = c.outboundSeq + 1 := by
        apply int64Wrap_eq_self
        · omega
        · omega
      have hsend : c.SendMessage =
          { c with outboundSeq := c.outboundSeq + 1,
                   buffer := c.buffer ++ [c.outboundSeq + 1] } := by
        unfold ConnSeq.SendMessage ConnSeq.NextSeq
        simp [hwrap, hroom]
      have hstep := ih c.SendMessage hov2
        (by rw [hsend]; simp only []; omega)
        (by rw [hsend]; simp only []; omega)
        (by
          rw [hsend]
          simp only []
          have htn : (c.outboundSeq + 1).toNat = c.outboundSeq.toNat + 1 := by omega
          rw [htn, List.range_succ, List.map_append, ← List.append_assoc, hinv]
          have hlast : seqOfIdx c.outboundSeq.toNat = c.outboundSeq + 1 := by
            unfold seqOfIdx
            omega
          simp [hlast])
      have hrun : runOps (SendOp.send :: rest) c = runOps rest c.SendMessage := rfl
      rw [hrun, hcnt]
      refine ⟨hstep.1, ?_⟩
      rw [hstep.2, hsend]
      simp only []
      omega
    | drain =>
      have hcnt : countSends (SendOp.drain :: rest) = countSends rest := rfl
      have hrun : runOps (SendOp.drain :: rest) c = runOps rest c.drainOne := rfl
      have hdrain : c.drainOne.delivered ++ c.drainOne.buffer = c.delivered ++ c.buffer ∧
          c.drainOne.outboundSeq = c.outboundSeq := by
        unfold ConnSeq.drainOne
        cases hb : c.buffer with
        | nil => simp [hb]
        | cons m ms => simp [hb]
      have hstep := ih c.drainOne (by rw [← hov]; rfl)
        (by rw [hdrain.2]; exact hpos)
        (by rw [hdrain.2]; rw [hcnt] at hbound; exact hbound)
        (by rw [hdrain.1, hdrain.2]; exact hinv)
      rw [hrun, hcnt]
      refine ⟨hstep.1, ?_⟩
      rw [hstep.2, hdrain.2]

theorem chain_seq_range (L : Nat) :
    List.Chain' (fun a b : Int => b = a + 1) ((List.range L).map seqOfIdx) := by
  rw [List.chain'_map]
  cases L with
  | zero => simp
  | succ n =>
    rw [List.chain'_range_succ]
    intro m _
    unfold seqOfIdx
    push_cast
    ring

theorem runOps_append (a b : List SendOp) (c : ConnSeq) :
    runOps (a ++ b) c = runOps b (runOps a c) := by
  induction a generalizing c with
  | nil => rfl
  | cons op rest ih =>
    cases op <;> simp [runOps, ih]

/-- C2 counterexample: the claim fails as stated.  257 sends while the
write pump is stalled overflow the 256-slot channel; the 257th send
consumes seq 257 from `NextSeq` but `SendRaw` drops the frame, so after
draining, a later message delivers seq 258 right after 256 — the
delivered stream starts at 1 and is strictly increasing but has a gap. -/
theorem claim2_counterexample :
    ¬ List.Chain' (fun a b : Int => b = a + 1)
        (runOps (List.replicate 257 .send ++ List.replicate 257 .drain ++
                 [.send, .drain]) NewConnection).delivered ∧
    (runOps (List.replicate 257 .send ++ List.replicate 257 .drain ++
             [.send, .drain]) NewConnection).delivered.head? = some 1 ∧
    (256 : Int) ∈ (runOps (List.replicate 257 .send ++ List.replicate 257 .drain ++
                   [.send, .drain]) NewConnection).delivered ∧
    (258 : Int) ∈ (runOps (List.replicate 257 .send ++ List.replicate 257 .drain ++
                   [.send, .drain]) NewConnection).delivered ∧
    (257 : Int) ∉ (runOps (List.replicate 257 .send ++ List.replicate 257 .drain ++
                   [.send, .drain]) NewConnection).delivered := by
  have hops : List.replicate 257 SendOp.send ++ List.replicate 257 SendOp.drain ++
      [SendOp.send, SendOp.drain] =
      List.replicate 64 SendOp.send ++ (List.replicate 64 SendOp.send ++
      (List.replicate 64 SendOp.send ++ (List.replicate 64 SendOp.send ++
      ([SendOp.send] ++ (List.replicate 64 SendOp.drain ++
      (List.replicate 64 SendOp.drain ++ (List.replicate 64 SendOp.drain ++
      (List.replicate 64 SendOp.drain ++ ([SendOp.drain] ++
      [SendOp.send, SendOp.drain]))))))))) := by
    set_option maxRecDepth 4000 in decide
  have h1 : runOps (List.replicate 64 SendOp.send) NewConnection =
      ⟨64, seqSeg 0 64, []⟩ := by
    set_option maxRecDepth 4000 in decide
  have h2 : runOps (List.replicate 64 SendOp.send) (⟨64, seqSeg 0 64, []⟩ : ConnSeq) =
      ⟨128, seqSeg 0 128, []⟩ := by
    set_option maxRecDepth 4000 in decide
  have h3 : runOps (List.replicate 64 SendOp.send) (⟨128, seqSeg 0 128, []⟩ : ConnSeq) =
      ⟨192, seqSeg 0 192, []⟩ := by
    set_option maxRecDepth 4000 in decide
  have h4 : runOps (List.replicate 64 SendOp.send) (⟨192, seqSeg 0 192, []⟩ : ConnSeq) =
      ⟨256, seqSeg 0 256, []⟩ := by
    set_option maxRecDepth 4000 in decide
  have h5 : runOps [SendOp.send] (⟨256, seqSeg 0 256, []⟩ : ConnSeq) =
      ⟨257, seqSeg 0 256, []⟩ := by
    set_option maxRecDepth 4000 in decide
  have h6 : runOps (List.replicate 64 SendOp.drain) (⟨257, seqSeg 0 256, []⟩ : ConnSeq) =
      ⟨257, seqSeg 64 192, seqSeg 0 64⟩ := by
    set_option maxRecDepth 4000 in decide
  have h7 : runOps (List.replicate 64 SendOp.drain)
      (⟨257, seqSeg 64 192, seqSeg 0 64⟩ : ConnSeq) =
      ⟨257, seqSeg 128 128, seqSeg 0 128⟩ := by
    set_option maxRecDepth 4000 in decide
  have h8 : runOps (List.replicate 64 SendOp.drain)
      (⟨257, seqSeg 128 128, seqSeg 0 128⟩ : ConnSeq) =
      ⟨257, seqSeg 192 64, seqSeg 0 192⟩ := by
    set_option maxRecDepth 4000 in decide
  have h9 : runOps (List.replicate 64 SendOp.drain)
      (⟨257, seqSeg 192 64, seqSeg 0 192⟩ : ConnSeq) =
      ⟨257, [], seqSeg 0 256⟩ := by
    set_option maxRecDepth 4000 in decide
  have h10 : runOps [SendOp.drain] (⟨257, [], seqSeg 0 256⟩ : ConnSeq) =
      ⟨257, [], seqSeg 0 256⟩ := by
    set_option maxRecDepth 4000 in decide
  have h11 : runOps [SendOp.send, SendOp.drain] (⟨257, [], seqSeg 0 256⟩ : ConnSeq) =
      ⟨258, [], seqSeg 0 256 ++ [258]⟩ := by
    set_option maxRecDepth 4000 in decide
  rw [hops, runOps_append, runOps_append, runOps_append, runOps_append, runOps_append,
      runOps_append, runOps_append, runOps_append, runOps_append, runOps_append,
      h1, h2, h3, h4, h5, h6, h7, h8, h9, h10, h11]
  refine ⟨?_, ?_, ?_, ?_, ?_⟩
  · show ¬ List.Chain' (fun a b : Int => b = a + 1) (seqSeg 0 256 ++ [258])
    intro hch
    rw [List.chain'_append] at hch
    have hlast : (seqSeg 0 256).getLast? = some 256 := by
      set_option maxRecDepth 4000 in decide
    have hcontra := hch.2.2 256 (by rw [hlast]; rfl) 258 rfl
    norm_num at hcontra
  · show (seqSeg 0 256 ++ [258]).head? = some (1 : Int)
    set_option maxRecDepth 4000 in decide
  · show (256 : Int) ∈ seqSeg 0 256 ++ [258]
    set_option maxRecDepth 4000 in decide
  · show (258 : Int) ∈ seqSeg 0 256 ++ [258]
    set_option maxRecDepth 4000 in decide
  · show (257 : Int) ∉ seqSeg 0 256 ++ [258]
    set_option maxRecDepth 4000 in decide

/-- C2 amended: provided no send ever finds the 256-slot channel full
(and fewer than 2^63 messages are sent, so the int64 counter does not
wrap), the seq values delivered to the client are exactly 1, 2, 3, ... in
order: strictly increasing from 1 with no gaps. -/
theorem claim2_delivered_seqs_gap_free (ops : List SendOp)
    (hov : noOverflow ops NewConnection = true)
    (hbound : countSends ops ≤ 2 ^ 63 - 1) :
    (runOps ops NewConnection).delivered =
      (List.range (runOps ops NewConnection).delivered.length).map seqOfIdx ∧
    List.Chain' (fun a b => b = a + 1) (runOps ops NewConnection).delivered ∧
    ((runOps ops NewConnection).delivered ≠ [] →
      (runOps ops NewConnection).delivered.head? = some 1) := by
  obtain ⟨hinv, hcount⟩ := runOps_invariant ops NewConnection hov
    (by simp [NewConnection]) (by simp [NewConnection]; omega)
    (by simp [NewConnection])
  set st := runOps ops NewConnection with hst
  have hlen : st.delivered.length ≤ st.outboundSeq.toNat := by
    have := congrArg List.length hinv
    simp at this
    omega
  have hdel : st.delivered = (List.range st.delivered.length).map seqOfIdx := by
    have htake := congrArg (List.take st.delivered.length) hinv
    rw [List.take_left] at htake
    conv_lhs => rw [htake]
    rw [← List.map_take, List.take_range, Nat.min_eq_left hlen]
  refine ⟨hdel, ?_, ?_⟩
  · rw [hdel]
    exact chain_seq_range _
  · intro hne
    have hex : ∃ m, st.delivered.length = m + 1 := by
      cases hd : st.delivered with
      | nil => exact absurd hd hne
      | cons a t => exact ⟨t.length, by simp [hd]⟩
    obtain ⟨m, hm⟩ := hex
    rw [hdel, hm, List.range_succ_eq_map]
    simp [seqOfIdx]

/-- C2 witness: a concrete overflow-free run of two sends and two drains
satisfies the amended delivery guarantee. -/
theorem claim2_witness :
    (runOps [SendOp.send, SendOp.send, SendOp.drain, SendOp.drain]
        NewConnection).delivered =
      (List.range (runOps [SendOp.send, SendOp.send, SendOp.drain, SendOp.drain]
        NewConnection).delivered.length).map seqOfIdx ∧
    List.Chain' (fun a b => b = a + 1)
      (runOps [SendOp.send, SendOp.send, SendOp.drain, SendOp.drain]
        NewConnection).delivered ∧
    ((runOps [SendOp.send, SendOp.send, SendOp.drain, SendOp.drain]
        NewConnection).delivered ≠ [] →
      (runOps [SendOp.send, SendOp.send, SendOp.drain, SendOp.drain]
        NewConnection).delivered.head? = some 1) :=
  claim2_delivered_seqs_gap_free [SendOp.send, SendOp.send, SendOp.drain, SendOp.drain]
    (by decide) (by show (2 : Nat) ≤ 2 ^ 63 - 1; norm_num)

/-! ### Claim C8: version gate -/

/-- C8: an envelope whose version differs from 1 — regardless of message
type or authentication state — is answered by exactly one error envelope
of code VERSION_MISMATCH with recoverable = false, echoing the
envelope's correlation ID, and no state changes. -/
theorem claim8_version_mismatch (s : Sys) (cid : ConnId) (env : Envelope)
    (now : Int) (freshToken : String) (hv : env.version ≠ 1) :
    s.handleMessage cid env now freshToken =
      (s, [.send cid (.errorMsg .versionMismatch false env.correlationID)]) ∧
    IsRecoverable .versionMismatch = false := by
  refine ⟨?_, rfl⟩
  unfold Sys.handleMessage
  rw [if_pos (by simpa [ProtocolVersion] using hv)]
  rfl

/-- C8 witness: an authenticate envelope with version 999 gets the
VERSION_MISMATCH error with recoverable false, echoing correlation ID. -/
theorem claim8_witness :
    sysEmpty.handleMessage 0 envV999 0 "tok" =
      (sysEmpty, [.send 0 (.errorMsg .versionMismatch false "corr-1")]) ∧
    IsRecoverable .versionMismatch = false :=
  claim8_version_mismatch sysEmpty 0 envV999 0 "tok" (by decide)

/-! ### Claim C9: unregister frame conditions -/

theorem closeConn_hubConns (s : Sys) (cid : ConnId) :
    (s.closeConn cid).hubConns = s.hubConns := by
  unfold Sys.closeConn Sys.updateConn
  split_ifs <;> rfl

theorem closeConn_hubLobbies (s : Sys) (cid : ConnId) :
    (s.closeConn cid).hubLobbies = s.hubLobbies := by
  unfold Sys.closeConn Sys.updateConn
  split_ifs <;> rfl

theorem closeConn_hubPlayers (s : Sys) (cid : ConnId) :
    (s.closeConn cid).hubPlayers = s.hubPlayers := by
  unfold Sys.closeConn Sys.updateConn
  split_ifs <;> rfl

theorem closeConn_lobbies (s : Sys) (cid : ConnId) :
    (s.closeConn cid).lobbies = s.lobbies := by
  unfold Sys.closeConn Sys.updateConn
  split_ifs <;> rfl

theorem closeConn_ready (s : Sys) (cid : ConnId) :
    (s.closeConn cid).ready = s.ready := by
  unfold Sys.closeConn Sys.updateConn
  split_ifs <;> rfl

theorem unreg_lobbyIndex_pointwise (s : Sys) (cid : ConnId) (k : String) :
    lookupA
      (if (s.connAt cid).lobbyCode ≠ "" then
        match lookupA s.hubLobbies (s.connAt cid).lobbyCode with
        | none => s.hubLobbies
        | some set =>
          if set.erase cid = [] then eraseA s.hubLobbies (s.connAt cid).lobbyCode
          else insertA s.hubLobbies (s.connAt cid).lobbyCode (set.erase cid)
      else s.hubLobbies) k =
    (if k = (s.connAt cid).lobbyCode ∧ (s.connAt cid).lobbyCode ≠ "" then
      match lookupA s.hubLobbies k with
      | none => none
      | some set => if set.erase cid = [] then none else some (set.erase cid)
    else lookupA s.hubLobbies k) := by
  by_cases hL : (s.connAt cid).lobbyCode ≠ ""
  · rw [if_pos hL]
    cases hm : lookupA s.hubLobbies (s.connAt cid).lobbyCode with
    | none =>
      by_cases hk : k = (s.connAt cid).lobbyCode
      · subst hk
        rw [if_pos ⟨rfl, hL⟩, hm]
      · rw [if_neg (fun hc => hk hc.1)]
    | some set =>
      dsimp only
      by_cases hz : set.erase cid = []
      · rw [if_pos hz]
        by_cases hk : k = (s.connAt cid).lobbyCode
        · subst hk
          rw [lookupA_eraseA, if_pos rfl, if_pos ⟨rfl, hL⟩, hm]
          simp [hz]
        · rw [lookupA_eraseA, if_neg hk, if_neg (fun hc => hk hc.1)]
      · rw [if_neg hz]
        by_cases hk : k = (s.connAt cid).lobbyCode
        · subst hk
          rw [lookupA_insertA, if_pos rfl, if_pos ⟨rfl, hL⟩, hm]
          simp [hz]
        · rw [lookupA_insertA, if_neg hk, if_neg (fun hc => hk hc.1)]
  · rw [if_neg hL, if_neg (fun hc => hL hc.2)]

theorem unreg_playerIndex_pointwise (s : Sys) (cid : ConnId) (pid : String) :
    lookupA
      (if (s.connAt cid).playerID ≠ "" ∧
          lookupA s.hubPlayers (s.connAt cid).playerID = some cid then
        eraseA s.hubPlayers (s.connAt cid).playerID
      else s.hubPlayers) pid =
    (if pid = (s.connAt cid).playerID ∧ (s.connAt cid).playerID ≠ "" ∧
        lookupA s.hubPlayers pid = some cid then none
    else lookupA s.hubPlayers pid) := by
  by_cases hP : (s.connAt cid).playerID ≠ "" ∧
      lookupA s.hubPlayers (s.connAt cid).playerID = some cid
  · rw [if_pos hP, lookupA_eraseA]
    by_cases hk : pid = (s.connAt cid).playerID
    · subst hk
      rw [if_pos rfl, if_pos ⟨rfl, hP⟩]
    · rw [if_neg hk, if_neg (fun hc => hk hc.1)]
  · rw [if_neg hP]
    by_cases hk : pid = (s.connAt cid).playerID
    · subst hk
      rw [if_neg (fun hc => hP ⟨hc.2.1, hc.2.2⟩)]
    · rw [if_neg (fun hc => hk hc.1)]

/-- C9: `handleUnregister` removes the connection from the
all-connections set and from its lobby's index entry (the entry is
deleted when it empties); it removes the player-index entry only when
that entry still stores this very connection; every other entry of the
three indices — and the registry and ready tracker — is unchanged; and
unregistering a connection that is not in the all-connections set
changes nothing at all. -/
theorem claim9_unregister_frame (s : Sys) (cid : ConnId) :
    (cid ∉ s.hubConns → s.handleUnregister cid = s) ∧
    (cid ∈ s.hubConns →
      (s.handleUnregister cid).hubConns = s.hubConns.erase cid ∧
      (∀ k, lookupA (s.handleUnregister cid).hubLobbies k =
        if k = (s.connAt cid).lobbyCode ∧ (s.connAt cid).lobbyCode ≠ "" then
          match lookupA s.hubLobbies k with
          | none => none
          | some set => if set.erase cid = [] then none else some (set.erase cid)
        else lookupA s.hubLobbies k) ∧
      (∀ pid, lookupA (s.handleUnregister cid).hubPlayers pid =
        if pid = (s.connAt cid).playerID ∧ (s.connAt cid).playerID ≠ "" ∧
            lookupA s.hubPlayers pid = some cid
        then none else lookupA s.hubPlayers pid) ∧
      (s.handleUnregister cid).lobbies = s.lobbies ∧
      (s.handleUnregister cid).ready = s.ready) := by
  constructor
  · intro hno
    unfold Sys.handleUnregister
    rw [if_neg hno]
  · intro hin
    unfold Sys.handleUnregister
    rw [if_pos hin]
    refine ⟨?_, ?_, ?_, ?_, ?_⟩
    · rw [closeConn_hubConns]
    · intro k
      rw [closeConn_hubLobbies]
      exact unreg_lobbyIndex_pointwise s cid k
    · intro pid
      rw [closeConn_hubPlayers]
      exact unreg_playerIndex_pointwise s cid pid
    · rw [closeConn_lobbies]
    · rw [closeConn_ready]

/-- C9 witness: unregistering an unknown connection is a no-op, and
unregistering connection 0 removes it from the connection set and from
the player index. -/
theorem claim9_witness :
    sysAB.handleUnregister 5 = sysAB ∧
    (sysAB.handleUnregister 0).hubConns = sysAB.hubConns.erase 0 ∧
    lookupA (sysAB.handleUnregister 0).hubPlayers "p" = none := by
  refine ⟨(claim9_unregister_frame sysAB 5).1 (by decide), ?_, ?_⟩
  · exact ((claim9_unregister_frame sysAB 0).2 (by decide)).1
  · rw [((claim9_unregister_frame sysAB 0).2 (by decide)).2.2.1 "p"]
    decide

/-! ### Claim C5: game-start sequence -/

/-- C5: when the start predicate holds (lobby has exactly two players,
the hub counts two connections in it, every player is marked ready and
connected), `checkAndStartGame` emits `game_starting` (countdown 0) and
then `game_started` (game_id = lobby code) in that order and clears the
lobby's ready-tracker entry, while the domain lobby registry — and in
particular the lobby's state — is left unchanged. -/
theorem claim5_game_start_sequence (s : Sys) (code : String) (l : Lobby) (now : Int)
    (hl : lookupA s.lobbies code = some l)
    (hp : l.GetPlayers.length = 2)
    (hc : s.LobbyConnectionCount code = 2)
    (hr : l.GetPlayers.all
        (fun p => isPlayerReady s.ready code p.id && s.IsPlayerConnected p.id) = true) :
    s.checkAndStartGame code now =
      ({ s with ready := clearLobbyReadyState s.ready code },
       [.broadcast code (.gameStarting now 0), .broadcast code (.gameStarted code)]) ∧
    lookupA (s.checkAndStartGame code now).1.ready code = none ∧
    (s.checkAndStartGame code now).1.lobbies = s.lobbies ∧
    lookupA (s.checkAndStartGame code now).1.lobbies code = some l := by
  have hmain : s.checkAndStartGame code now =
      ({ s with ready := clearLobbyReadyState s.ready code },
       [.broadcast code (.gameStarting now 0), .broadcast code (.gameStarted code)]) := by
    unfold Sys.checkAndStartGame
    rw [hl]
    dsimp only
    rw [if_neg (by rw [hp]; exact fun hc2 => hc2 rfl),
        if_neg (by rw [hc]; exact fun hc2 => hc2 rfl),
        if_pos hr]
  refine ⟨hmain, ?_, ?_, ?_⟩ <;> rw [hmain]
  · unfold clearLobbyReadyState
    rw [lookupA_eraseA, if_pos rfl]
  · exact hl

/-- C5 witness: the concrete ready lobby starts: two broadcasts in
order, ready tracker cleared, registry untouched. -/
theorem claim5_witness :
    sysReady.checkAndStartGame "C" 5 =
      ({ sysReady with ready := clearLobbyReadyState sysReady.ready "C" },
       [.broadcast "C" (.gameStarting 5 0), .broadcast "C" (.gameStarted "C")]) ∧
    lookupA (sysReady.checkAndStartGame "C" 5).1.ready "C" = none ∧
    (sysReady.checkAndStartGame "C" 5).1.lobbies = sysReady.lobbies ∧
    lookupA (sysReady.checkAndStartGame "C" 5).1.lobbies "C" = some lobbyTwo :=
  claim5_game_start_sequence sysReady "C" lobbyTwo 5 (by rfl) (by rfl) (by rfl) (by decide)

/-- C3 counterexample: player "p" is live on connection 0 (A) and then
authenticates on connection 1 (B) without a reconnect token.  The player
index now points at B, but A is NOT unregistered: it is still in the
all-connections set and in the lobby index, and its send channel is
open.  Displacement happens only in the single-valued player index. -/
theorem claim3_counterexample :
    (sysAB.handleAuthenticate 1 envAuthB 0 "t2").1.GetConnectionByPlayerID "p" =
      some 1 ∧
    0 ∈ (sysAB.handleAuthenticate 1 envAuthB 0 "t2").1.hubConns ∧
    0 ∈ ((lookupA (sysAB.handleAuthenticate 1 envAuthB 0 "t2").1.hubLobbies "C").getD []) ∧
    ((sysAB.handleAuthenticate 1 envAuthB 0 "t2").1.connAt 0).sendClosed = false ∧
    ((sysAB.handleAuthenticate 1 envAuthB 0 "t2").1.connAt 0).state ≠ .closing := by
  decide

theorem updateConn_connAt_self (s : Sys) (cid : ConnId) (f : Conn → Conn) :
    (s.updateConn cid f).connAt cid = f (s.connAt cid) := by
  unfold Sys.updateConn Sys.connAt
  dsimp only
  rw [lookupA_insertA, if_pos rfl]
  rfl

theorem updateConn_connAt_other (s : Sys) (cid other : ConnId) (f : Conn → Conn)
    (h : other ≠ cid) : (s.updateConn cid f).connAt other = s.connAt other := by
  unfold Sys.updateConn Sys.connAt
  dsimp only
  rw [lookupA_insertA, if_neg h]

/-- C3 amended: after the second authentication completes, the hub's
player index stores exactly the new connection B — so
`GetConnectionByPlayerID` returns B and `IsPlayerConnected` is true —
but the old connection A is not unregistered: it remains in the
all-connections set and its send channel stays open.  (A is torn down
only later, by its own transport failure path.) -/
theorem claim3_displacement_updates_player_index_only
    (s : Sys) (a b : ConnId) (p code : String)
    (env : Envelope) (now : Int) (tok : String) (l : Lobby)
    (hab : a ≠ b)
    (henv : env.payload = .auth { playerID := p, sessionToken := "", lobbyCode := code,
                                  reconnectToken := "", lastSeq := 0 })
    (hpne : p ≠ "") (hcode : code ≠ "")
    (hl : lookupA s.lobbies code = some l)
    (hmem : l.HasPlayer p = true)
    (hpa : lookupA s.hubPlayers p = some a)
    (hain : a ∈ s.hubConns)
    (haopen : (s.connAt a).sendClosed = false) :
    (s.handleAuthenticate b env now tok).1.GetConnectionByPlayerID p = some b ∧
    (s.handleAuthenticate b env now tok).1.IsPlayerConnected p = true ∧
    a ∈ (s.handleAuthenticate b env now tok).1.hubConns ∧
    ((s.handleAuthenticate b env now tok).1.connAt a).sendClosed = false := by
  have hstep : s.handleAuthenticate b env now tok =
      ((s.updateConn b (fun c =>
        { c with playerID := p, lobbyCode := code, state := .active,
                 reconnectToken := tok,
                 sessionExpiry := now + sessionDurationMs })).AssociateWithLobby b,
       [.send b (.authenticated p tok (now + sessionDurationMs) env.correlationID),
        sendLobbyState b]) := by
    unfold Sys.handleAuthenticate
    rw [henv]
    dsimp only [parseAuth]
    rw [if_neg (by simp [hpne, hcode]), hl]
    dsimp only
    rw [if_neg (by rw [hmem]; simp),
        if_neg (by unfold Lobby.GetState; cases l.state <;> simp)]
    simp only [ne_eq, not_true_eq_false, reduceIte]
  set f : Conn → Conn := fun c =>
    { c with playerID := p, lobbyCode := code, state := .active,
             reconnectToken := tok, sessionExpiry := now + sessionDurationMs } with hf
  have hconnb : ((s.updateConn b f).connAt b).lobbyCode = code ∧
      ((s.updateConn b f).connAt b).playerID = p := by
    rw [updateConn_connAt_self]
    exact ⟨rfl, rfl⟩
  have hassoc : ((s.updateConn b f).AssociateWithLobby b).hubPlayers =
      insertA (s.updateConn b f).hubPlayers ((s.updateConn b f).connAt b).playerID b ∧
      ((s.updateConn b f).AssociateWithLobby b).hubConns = (s.updateConn b f).hubConns ∧
      ((s.updateConn b f).AssociateWithLobby b).conns = (s.updateConn b f).conns := by
    unfold Sys.AssociateWithLobby
    rw [if_neg (by rw [hconnb.1, hconnb.2]; simp [hpne, hcode])]
    exact ⟨rfl, rfl, rfl⟩
  rw [hstep]
  dsimp only
  refine ⟨?_, ?_, ?_, ?_⟩
  · unfold Sys.GetConnectionByPlayerID
    rw [hassoc.1, hconnb.2, lookupA_insertA, if_pos rfl]
  · unfold Sys.IsPlayerConnected
    rw [hassoc.1, hconnb.2, lookupA_insertA, if_pos rfl]
    rfl
  · rw [hassoc.2.1]
    exact hain
  · have hca : ((s.updateConn b f).AssociateWithLobby b).connAt a =
        (s.updateConn b f).connAt a := by
      unfold Sys.connAt
      rw [hassoc.2.2]
    rw [hca, updateConn_connAt_other s b a f hab]
    exact haopen

/-- C3 witness for the amended theorem: the concrete two-connection
displacement run. -/
theorem claim3_witness :
    (sysAB.handleAuthenticate 1 envAuthB 0 "t2").1.GetConnectionByPlayerID "p" =
      some 1 ∧
    (sysAB.handleAuthenticate 1 envAuthB 0 "t2").1.IsPlayerConnected "p" = true ∧
    0 ∈ (sysAB.handleAuthenticate 1 envAuthB 0 "t2").1.hubConns ∧
    ((sysAB.handleAuthenticate 1 envAuthB 0 "t2").1.connAt 0).sendClosed = false :=
  claim3_displacement_updates_player_index_only sysAB 0 1 "p" "C" envAuthB 0 "t2"
    lobbyOneP (by decide) (by rfl) (by decide) (by decide) (by rfl) (by rfl) (by rfl)
    (by decide) (by rfl)

end PokeBattles
